import Mathlib

/-!
Verification of the CellTutor core (Registry, Inspector, CellAgentBuilder,
CellAgentRuntime) against its natural-language specification.

The Python module is shallowly embedded: JSON-like dynamic values become the
inductive `Val`; Python dicts become association lists with first-occurrence
lookup and in-place update modelled by `dictSet`; the SQLite-backed store
becomes an explicit `RegistryState` threaded through the operations; code that
can raise returns `Except PyErr _`.  Collaborators the spec treats as opaque
(the text generator, the visual renderer, `json.loads`, `ast.parse`) are
parameters of the embedded functions.  Timestamps are opaque integer
parameters (their values matter to no claim).  `json.dumps` followed by
`json.loads` is the identity on JSON-representable values, so the store keeps
the structured payload directly.
-/

namespace CellTutor

/-- JSON-like Python values (the payloads handled by the module). -/
inductive Val where
  | null : Val
  | bool : Bool → Val
  | num : Int → Val
  | str : String → Val
  | list : List Val → Val
  | obj : List (String × Val) → Val

mutual

/-- Decidable equality for `Val` (the nested inductive blocks deriving). -/
def valDecEq : (a b : Val) → Decidable (a = b)
  | .null, .null => .isTrue rfl
  | .null, .bool _ => .isFalse nofun
  | .null, .num _ => .isFalse nofun
  | .null, .str _ => .isFalse nofun
  | .null, .list _ => .isFalse nofun
  | .null, .obj _ => .isFalse nofun
  | .bool _, .null => .isFalse nofun
  | .bool a, .bool b =>
      match decEq a b with
      | .isTrue h => .isTrue (h ▸ rfl)
      | .isFalse h => .isFalse (fun hh => h (Val.bool.inj hh))
  | .bool _, .num _ => .isFalse nofun
  | .bool _, .str _ => .isFalse nofun
  | .bool _, .list _ => .isFalse nofun
  | .bool _, .obj _ => .isFalse nofun
  | .num _, .null => .isFalse nofun
  | .num _, .bool _ => .isFalse nofun
  | .num a, .num b =>
      match decEq a b with
      | .isTrue h => .isTrue (h ▸ rfl)
      | .isFalse h => .isFalse (fun hh => h (Val.num.inj hh))
  | .num _, .str _ => .isFalse nofun
  | .num _, .list _ => .isFalse nofun
  | .num _, .obj _ => .isFalse nofun
  | .str _, .null => .isFalse nofun
  | .str _, .bool _ => .isFalse nofun
  | .str _, .num _ => .isFalse nofun
  | .str a, .str b =>
      match decEq a b with
      | .isTrue h => .isTrue (h ▸ rfl)
      | .isFalse h => .isFalse (fun hh => h (Val.str.inj hh))
  | .str _, .list _ => .isFalse nofun
  | .str _, .obj _ => .isFalse nofun
  | .list _, .null => .isFalse nofun
  | .list _, .bool _ => .isFalse nofun
  | .list _, .num _ => .isFalse nofun
  | .list _, .str _ => .isFalse nofun
  | .list a, .list b =>
      match valListDecEq a b with
      | .isTrue h => .isTrue (h ▸ rfl)
      | .isFalse h => .isFalse (fun hh => h (Val.list.inj hh))
  | .list _, .obj _ => .isFalse nofun
  | .obj _, .null => .isFalse nofun
  | .obj _, .bool _ => .isFalse nofun
  | .obj _, .num _ => .isFalse nofun
  | .obj _, .str _ => .isFalse nofun
  | .obj _, .list _ => .isFalse nofun
  | .obj a, .obj b =>
      match valObjDecEq a b with
      | .isTrue h => .isTrue (h ▸ rfl)
      | .isFalse h => .isFalse (fun hh => h (Val.obj.inj hh))

def valListDecEq : (a b : List Val) → Decidable (a = b)
  | [], [] => .isTrue rfl
  | [], _ :: _ => .isFalse nofun
  | _ :: _, [] => .isFalse nofun
  | a :: as, b :: bs =>
      match valDecEq a b, valListDecEq as bs with
      | .isTrue h1, .isTrue h2 => .isTrue (by rw [h1, h2])
      | .isFalse h1, _ => .isFalse (fun hh => h1 (List.cons.inj hh).1)
      | _, .isFalse h2 => .isFalse (fun hh => h2 (List.cons.inj hh).2)

def valObjDecEq : (a b : List (String × Val)) → Decidable (a = b)
  | [], [] => .isTrue rfl
  | [], _ :: _ => .isFalse nofun
  | _ :: _, [] => .isFalse nofun
  | (k, v) :: as, (l, w) :: bs =>
      match decEq k l, valDecEq v w, valObjDecEq as bs with
      | .isTrue h1, .isTrue h2, .isTrue h3 => .isTrue (by rw [h1, h2, h3])
      | .isFalse h1, _, _ =>
          .isFalse (by intro hh; injection hh with h hs; injection h with hk hv; exact h1 hk)
      | _, .isFalse h2, _ =>
          .isFalse (by intro hh; injection hh with h hs; injection h with hk hv; exact h2 hv)
      | _, _, .isFalse h3 =>
          .isFalse (by intro hh; injection hh with h hs; exact h3 hs)

end

instance : DecidableEq Val := valDecEq

/-- Python truthiness (`bool(v)`) for the values above. -/
def truthy : Val → Bool
  | .null => false
  | .bool b => b
  | .num n => n != 0
  | .str s => s != ""
  | .list l => !l.isEmpty
  | .obj d => !d.isEmpty

/-- Python dict lookup `d.get(k)`: first (unique) occurrence of the key. -/
def dictGet : List (String × Val) → String → Option Val
  | [], _ => none
  | (k', v) :: rest, k => if k' = k then some v else dictGet rest k

/-- Python dict lookup with default, `d.get(k, dflt)`. -/
def dictGetD (m : List (String × Val)) (k : String) (dflt : Val) : Val :=
  (dictGet m k).getD dflt

/-- Python in-place assignment `d[k] = v`: replaces the value at an existing
key in place, otherwise appends the new key at the end (insertion order). -/
def dictSet : List (String × Val) → String → Val → List (String × Val)
  | [], k, v => [(k, v)]
  | (k', v') :: rest, k, v =>
      if k' = k then (k, v) :: rest else (k', v') :: dictSet rest k v

/-- The exceptions the embedded code can raise. -/
inductive PyErr where
  | valueError : String → PyErr
  | typeError : PyErr
  | attributeError : PyErr
  | indexError : PyErr
  | keyError : String → PyErr
  | integrityError : PyErr
deriving DecidableEq

/-- Decidable equality for `Except` results, so concrete runs can be
checked by `decide`. -/
def exceptDecEq {ε α : Type} [DecidableEq ε] [DecidableEq α] :
    (a b : Except ε α) → Decidable (a = b)
  | .error e, .error f =>
      match decEq e f with
      | .isTrue h => .isTrue (h ▸ rfl)
      | .isFalse h => .isFalse (fun hh => h (Except.error.inj hh))
  | .error _, .ok _ => .isFalse nofun
  | .ok _, .error _ => .isFalse nofun
  | .ok a, .ok b =>
      match decEq a b with
      | .isTrue h => .isTrue (h ▸ rfl)
      | .isFalse h => .isFalse (fun hh => h (Except.ok.inj hh))

instance {ε α : Type} [DecidableEq ε] [DecidableEq α] :
    DecidableEq (Except ε α) := exceptDecEq

/-- The SQLite database: the `cell_agents` table rows `(id, cell_index,
manifest payload, created_at)` and the `attempts` table rows
`(id, cell_id, ts, quiz_result payload)`, in insertion order. -/
structure RegistryState where
  cell_agents : List (Val × Int × List (String × Val) × Int)
  attempts : List (String × Val × Int × List (String × Val))
deriving DecidableEq

/-- `SELECT manifest FROM cell_agents WHERE id=?` followed by decoding:
first row whose key equals `cid` (keys are unique: `id` is a primary key). -/
def lookupAgent : List (Val × Int × List (String × Val) × Int) → Val →
    Option (List (String × Val))
  | [], _ => none
  | r :: rest, cid => if r.1 = cid then some r.2.2.1 else lookupAgent rest cid

/-- `Registry.get_manifest`: exact-key lookup, `None` when absent. -/
def get_manifest (st : RegistryState) (cid : Val) : Option (List (String × Val)) :=
  lookupAgent st.cell_agents cid

/-- Whether an attempts row with this primary key already exists. -/
def hasAttempt : List (String × Val × Int × List (String × Val)) → String → Bool
  | [], _ => false
  | r :: rest, aid => if r.1 = aid then true else hasAttempt rest aid

/-- The id `register` uses: `manifest.get("id") or gen_id()` — the embedded id
when it is truthy, otherwise the freshly generated one. -/
def computeCid (manifest : List (String × Val)) (fresh : String) : Val :=
  match dictGet manifest "id" with
  | some v => if truthy v then v else .str fresh
  | none => .str fresh

/-- `Registry.register`: stamp the id into the manifest dict (in-place update,
returned here as the mutated dict), then `INSERT` the row; the `id` primary
key makes a duplicate insert raise `IntegrityError`.  Returns the id, the
mutated manifest (the caller's aliased dict) and the new store. -/
def register (fresh : String) (st : RegistryState) (cell_index : Int) (ts : Int)
    (manifest : List (String × Val)) :
    Except PyErr (Val × List (String × Val) × RegistryState) :=
  let cid := computeCid manifest fresh
  let m' := dictSet manifest "id" cid
  if (lookupAgent st.cell_agents cid).isSome then .error .integrityError
  else .ok (cid, m', ⟨st.cell_agents ++ [(cid, cell_index, m', ts)], st.attempts⟩)

/-- `Registry.store_attempt`: `INSERT` one attempts row with a fresh id
(primary-key violation raises `IntegrityError`). -/
def store_attempt (aid : String) (ts : Int) (st : RegistryState) (cell_id : Val)
    (result : List (String × Val)) : Except PyErr RegistryState :=
  if hasAttempt st.attempts aid then .error .integrityError
  else .ok ⟨st.cell_agents, st.attempts ++ [(aid, cell_id, ts, result)]⟩

/-! ### Inspector: the Python AST and `ast.walk`

`Node` models the statement nodes `Inspector.extract_summary` inspects.
`importStmt first rest` models an `ast.Import` with alias names
`first :: rest` (the alias list of a parsed `import` statement is never
empty, which the separated head encodes); `importFromStmt` carries the
optional `module` of an `ast.ImportFrom`; every other node kind is `other`
with its child statements.  Non-statement children of real AST nodes
(argument lists, expressions, ...) are elided: they match none of the four
collectors, so their only effect in `ast.walk` is to enlarge the traversal
with nodes every collector ignores. -/

inductive Node where
  | functionDef : String → List Node → Node
  | forStmt : List Node → Node
  | whileStmt : List Node → Node
  | importStmt : String → List String → Node
  | importFromStmt : Option String → Node
  | other : List Node → Node

/-- `ast.iter_child_nodes` restricted to the modelled children. -/
def children : Node → List Node
  | .functionDef _ b => b
  | .forStmt b => b
  | .whileStmt b => b
  | .importStmt _ _ => []
  | .importFromStmt _ => []
  | .other b => b

theorem sum_map_sizeOf_lt (l : List Node) : (l.map sizeOf).sum < sizeOf l := by
  induction l with
  | nil => simp
  | cons a t ih =>
      simp only [List.map_cons, List.sum_cons, List.cons.sizeOf_spec]
      omega

theorem sizeOf_children_lt (n : Node) : ((children n).map sizeOf).sum < sizeOf n := by
  have h := sum_map_sizeOf_lt (children n)
  have h2 : sizeOf (children n) ≤ sizeOf n := by
    cases n <;> (simp [children]; all_goals omega)
  omega

theorem one_le_sizeOf_node (n : Node) : 1 ≤ sizeOf n := by
  cases n <;> (simp; all_goals omega)

/-- `ast.walk`: breadth-first traversal with a FIFO queue, exactly as in the
CPython implementation (pop a node, yield it, enqueue its children).  The
`Module` root of a parsed tree is yielded first by the real `ast.walk` but
matches none of the collectors; `bfs body` is the traversal of its body. -/
def bfs : List Node → List Node
  | [] => []
  | n :: rest => n :: bfs (rest ++ children n)
termination_by l => (l.map sizeOf).sum
decreasing_by
  simp only [List.map_append, List.sum_append, List.map_cons, List.sum_cons]
  have := sizeOf_children_lt n
  omega

/-- Depth-first pre-order traversal: the document order of the statements. -/
def dfs : List Node → List Node
  | [] => []
  | n :: rest => n :: (dfs (children n) ++ dfs rest)
termination_by l => (l.map sizeOf).sum
decreasing_by
  all_goals simp only [List.map_cons, List.sum_cons]
  · have := sizeOf_children_lt n
    omega
  · have := one_le_sizeOf_node n
    omega

theorem dfs_append (a b : List Node) : dfs (a ++ b) = dfs a ++ dfs b := by
  induction a with
  | nil => simp [dfs]
  | cons x t ih =>
      rw [List.cons_append, dfs, dfs, ih, List.cons_append, List.append_assoc]

/-- The breadth-first traversal is a permutation of the depth-first one:
`ast.walk` visits every node of the tree, merely in a different order. -/
theorem bfs_perm_dfs : ∀ l : List Node, (bfs l).Perm (dfs l)
  | [] => by rw [bfs, dfs]
  | n :: rest => by
      rw [bfs, dfs]
      have ih := bfs_perm_dfs (rest ++ children n)
      rw [dfs_append] at ih
      exact (ih.trans (List.perm_append_comm)).cons n
termination_by l => (l.map sizeOf).sum
decreasing_by
  simp only [List.map_append, List.sum_append, List.map_cons, List.sum_cons]
  have := sizeOf_children_lt n
  omega

/-! ### String helpers (Python string operations used by the module) -/

/-- Python slicing `s[:n]`: the first at most `n` characters. -/
def pySlice (s : String) (n : Nat) : String := ⟨s.data.take n⟩

/-- Python `s.lower()` (restricted to ASCII case mapping). -/
def pyLower (s : String) : String := ⟨s.data.map Char.toLower⟩

/-- Python `needle in hay` on strings: substring containment
(the empty needle is contained in everything). -/
def strContains (hay needle : String) : Bool :=
  hay.data.tails.any (fun t => needle.data.isPrefixOf t)

/-- Python `s.splitlines()` for the line terminators `\n`, `\r\n` and `\r`;
no trailing empty line is produced. -/
def splitlinesAux : List Char → List Char → List (List Char)
  | [], acc => if acc.isEmpty then [] else [acc.reverse]
  | '\r' :: '\n' :: rest, acc => acc.reverse :: splitlinesAux rest []
  | '\n' :: rest, acc => acc.reverse :: splitlinesAux rest []
  | '\r' :: rest, acc => acc.reverse :: splitlinesAux rest []
  | c :: rest, acc => splitlinesAux rest (c :: acc)

def pySplitlines (s : String) : List String :=
  (splitlinesAux s.data []).map (fun cs => ⟨cs⟩)

/-- Truthiness of `ln.strip()`: the line has a non-whitespace character. -/
def nonBlank (s : String) : Bool := s.data.any (fun c => !c.isWhitespace)

/-! ### Inspector.extract_summary -/

/-- The name of an `ast.FunctionDef` node, for the `functions` collector. -/
def funcName : Node → Option String
  | .functionDef s _ => some s
  | _ => none

/-- Whether a node is an `ast.For` or `ast.While`, for the `has_loop` test. -/
def isLoopNode : Node → Bool
  | .forStmt _ => true
  | .whileStmt _ => true
  | _ => false

/-- `n.names[0].name` of an `ast.Import` node: only the FIRST alias of the
statement is collected by the source. -/
def importFirst : Node → Option String
  | .importStmt s _ => some s
  | _ => none

/-- `n.module` of an `ast.ImportFrom` node, kept only when truthy
(the source guards with `if n.module`). -/
def fromModule : Node → Option String
  | .importFromStmt (some m) => if m = "" then none else some m
  | _ => none

/-- `Inspector.extract_summary`.  `parse` stands for `ast.parse`, returning
the statement body of the parsed `Module` or `none` when parsing raises.
On parse failure the error-tagged dict carries the first 200 characters of
the raw input; on success the four collectors run over `ast.walk`.
`list(set(...))` has no specified order in Python, so the `imports` entry is
modelled as an order-preserving deduplication and theorems about it state
only membership and duplicate-freedom. -/
def extract_summary (parse : String → Option (List Node)) (code : String) :
    List (String × Val) :=
  match parse code with
  | none =>
      [("error", Val.str "not python or parse error"),
       ("raw_code", Val.str (pySlice code 200))]
  | some body =>
      let nodes := bfs body
      let funcs := nodes.filterMap funcName
      let loops := nodes.any isLoopNode
      let imports := nodes.filterMap importFirst ++ nodes.filterMap fromModule
      [("functions", Val.list (funcs.map Val.str)),
       ("has_loop", Val.bool loops),
       ("imports", Val.list (((imports.filter (fun i => i != "")).dedup).map Val.str)),
       ("lines", Val.list (((pySplitlines code).filter nonBlank).map Val.str))]

/-! ### CellAgentRuntime -/

/-- One entry of the `user_answers` list: the dict `{"q_index": ..,
"answer": ..}` (the two keys every claim assumes present). -/
structure AnswerEntry where
  qIndex : Int
  answer : String
deriving DecidableEq

/-- One entry of the graded `details` list. -/
structure DetailEntry where
  index : Int
  user_answer : String
  correct : Bool
deriving DecidableEq

def detailVal (d : DetailEntry) : Val :=
  .obj [("index", .num d.index), ("user_answer", .str d.user_answer),
        ("correct", .bool d.correct)]

/-- Python list indexing `l[i]`: non-negative indices from the front,
negative indices from the back, `IndexError` outside `[-len, len)`. -/
def pyIndex (l : List Val) (i : Int) : Except PyErr Val :=
  if 0 ≤ i then
    match l.get? i.toNat with
    | some v => .ok v
    | none => .error .indexError
  else
    match l.get? ((l.length : Int) + i).toNat with
    | some v => if (l.length : Int) + i < 0 then .error .indexError else .ok v
    | none => .error .indexError

/-- `quiz[idx].get("answer_hint", "")` followed by `.lower()`: absent key
falls back to `""`; a non-dict question or a non-string hint raises
`AttributeError` (no `.get` / no `.lower`). -/
def hintOf : Val → Except PyErr String
  | .obj d =>
      match dictGet d "answer_hint" with
      | none => .ok ""
      | some (.str s) => .ok s
      | some _ => .error .attributeError
  | _ => .error .attributeError

/-- Grade one answer entry: `expected_hint` is the lowercased hint when
`idx < len(quiz)` (note: negative indices pass this guard and index from the
back), otherwise `""`; an empty `expected_hint` is unconditionally correct,
otherwise containment in the lowercased user answer decides. -/
def gradeOne (quizV : Val) (a : AnswerEntry) : Except PyErr DetailEntry :=
  match quizV with
  | .list qs =>
      if a.qIndex < (qs.length : Int) then
        match pyIndex qs a.qIndex with
        | .error e => .error e
        | .ok q =>
            match hintOf q with
            | .error e => .error e
            | .ok h =>
                let expected := pyLower h
                let correct :=
                  if expected != "" then strContains (pyLower a.answer) expected
                  else true
                .ok ⟨a.qIndex, a.answer, correct⟩
      else .ok ⟨a.qIndex, a.answer, true⟩
  | _ => .error .typeError

/-- The grading loop of `run_quiz`: entries are graded in order and the
first raised exception aborts the call. -/
def gradeAll (quizV : Val) : List AnswerEntry → Except PyErr (List DetailEntry)
  | [] => .ok []
  | a :: rest =>
      match gradeOne quizV a with
      | .error e => .error e
      | .ok d =>
          match gradeAll quizV rest with
          | .error e => .error e
          | .ok ds => .ok (d :: ds)

/-- The summary dict `{"score": .., "total": .., "details": ..}` with
`score = sum(1 for r in results if r["correct"])`. -/
def summaryDict (results : List DetailEntry) : List (String × Val) :=
  [("score", Val.num ((results.filter (fun r => r.correct)).length : Int)),
   ("total", Val.num (results.length : Int)),
   ("details", Val.list (results.map detailVal))]

/-- `CellAgentRuntime.run_quiz`.  A missing manifest raises
(`None.get(...)` is an `AttributeError`); otherwise the answers are graded
against `manifest.get("quiz", [])`, the summary is stored as one attempt
row and returned.  `aid`/`ts` stand for the generated attempt id and
`time.time()`. -/
def run_quiz (aid : String) (ts : Int) (st : RegistryState) (cell_id : Val)
    (user_answers : List AnswerEntry) :
    Except PyErr (List (String × Val) × RegistryState) :=
  match get_manifest st cell_id with
  | none => .error .attributeError
  | some manifest =>
      let quizV := dictGetD manifest "quiz" (.list [])
      match gradeAll quizV user_answers with
      | .error e => .error e
      | .ok results =>
          let summary := summaryDict results
          match store_attempt aid ts st cell_id summary with
          | .error e => .error e
          | .ok st2 => .ok (summary, st2)

/-- `CellAgentRuntime.explain`: a missing or falsy manifest raises
`ValueError("Cell agent not found")`; depth "summary"/"line" read the
corresponding entries with `[]` (KeyError when absent), any other depth
falls back to `.get("summary")` (`None` when absent). -/
def explain (st : RegistryState) (cell_id : Val) (depth : String) :
    Except PyErr Val :=
  match get_manifest st cell_id with
  | none => .error (.valueError "Cell agent not found")
  | some manifest =>
      if manifest.isEmpty then .error (.valueError "Cell agent not found")
      else if depth = "summary" then
        match dictGet manifest "summary" with
        | some v => .ok v
        | none => .error (.keyError "summary")
      else if depth = "line" then
        match dictGet manifest "line_by_line" with
        | some v => .ok v
        | none => .error (.keyError "line_by_line")
      else .ok (dictGetD manifest "summary" .null)

/-- `CellAgentRuntime.get_visuals`: NO missing-manifest guard — when the id
is absent, `get_manifest` returns `None` and `None.get("diagram")` raises
`AttributeError`; otherwise the two references are read with `.get`. -/
def get_visuals (st : RegistryState) (cell_id : Val) :
    Except PyErr (List (String × Val)) :=
  match get_manifest st cell_id with
  | none => .error .attributeError
  | some m =>
      .ok [("diagram", dictGetD m "diagram" .null),
           ("animation", dictGetD m "animation" .null)]

/-- `CellAgentRuntime.ask_question`: a missing manifest raises
(`None["code_sample"]` is a `TypeError`); otherwise the prompt embeds the
first 2000 characters of the stored code sample and is handed to the text
generator (`llm`), whose reply is returned verbatim.  The model types the
stored `code_sample` as a string, as `build_for_cell` always stores one. -/
def ask_question (llm : String → String) (st : RegistryState) (cell_id : Val)
    (user_question : String) : Except PyErr String :=
  match get_manifest st cell_id with
  | none => .error .typeError
  | some m =>
      match dictGet m "code_sample" with
      | some (.str s) =>
          .ok (llm ("User question: " ++ user_question ++ "\nContext:\n" ++
                pySlice s 2000 ++ "\nProvide a clear, concise answer."))
      | some _ => .error .typeError
      | none => .error (.keyError "code_sample")

/-! ### CellAgentBuilder -/

/-- The entries of `inspect.get("lines", [])` as strings (the inspection
dict only ever stores a list of strings there). -/
def asStrList : Val → List String
  | .list l => l.filterMap (fun v => match v with | .str s => some s | _ => none)
  | _ => []

/-- The default quiz substituted when `json.loads` on the generator's quiz
reply raises: one generic question. -/
def defaultQuiz : Val :=
  .list [.obj [("q", .str "What does the code do?"), ("type", .str "short"),
               ("answer_hint", .str "describe")]]

/-- The fixed quiz-generation prompt of `build_for_cell`. -/
def quizPrompt : String :=
  "Generate a 1-3 question quiz based on this code. Return JSON list of questions."

/-- The manifest dict assembled by `build_for_cell` before registration
(its local variable `manifest`, lifted out for reasoning). -/
def buildManifest (llm : String → String) (mkDiagram : String → String → String)
    (mkAnim : String → List String → String) (jsonLoads : String → Option Val)
    (parse : String → Option (List Node)) (dId aId : String) (ts : Int)
    (cell_index : Int) (code : String) (title : Option String) :
    List (String × Val) :=
  let inspect := extract_summary parse code
  let name := match title with
    | some t => if t = "" then "CellAgent_" ++ toString cell_index else t
    | none => "CellAgent_" ++ toString cell_index
  let summary := llm ("Summary:\nCode:\n" ++ code ++ "\n\nProvide a concise summary.")
  let line_by_line := llm ("Line-by-line explanation:\n" ++
    String.intercalate "\n" ((asStrList (dictGetD inspect "lines" (.list []))).take 20))
  let vis_instructions := llm ("Visualize the following code:\n\n" ++ code ++
    "\n\nSuggest a diagram and steps.")
  let diagram_path := mkDiagram dId vis_instructions
  let frames := ["State 1: explain variable changes", "State 2: explain variable changes",
                 "State 3: explain variable changes"]
  let anim_path := mkAnim aId frames
  let quiz := match jsonLoads (llm quizPrompt) with
    | some v => v
    | none => defaultQuiz
  [("name", .str name), ("cell_index", .num cell_index), ("code_sample", .str code),
   ("inspection", .obj inspect), ("summary", .str summary),
   ("line_by_line", .str line_by_line), ("diagram", .str diagram_path),
   ("animation", .str anim_path), ("quiz", quiz), ("created_at", .num ts)]

/-- `CellAgentBuilder.build_for_cell`.  Opaque collaborators are parameters:
`llm` (the text generator), `mkDiagram`/`mkAnim` (the visual renderer),
`jsonLoads` (`json.loads`, `none` when it raises), `parse` (`ast.parse`).
`dId`/`aId`/`mId` are the three `gen_id()` draws (diagram artifact id,
animation artifact id, manifest id candidate) and `ts` is `time.time()`.
Only `json.loads` failure is caught (falling back to `defaultQuiz`); a
decoded payload of any shape is stored as-is.  The assembled manifest is
registered (which stamps the id in) and returned. -/
def build_for_cell (llm : String → String) (mkDiagram : String → String → String)
    (mkAnim : String → List String → String) (jsonLoads : String → Option Val)
    (parse : String → Option (List Node)) (dId aId mId : String) (ts : Int)
    (st : RegistryState) (cell_index : Int) (code : String)
    (title : Option String) :
    Except PyErr (List (String × Val) × RegistryState) :=
  match register mId st cell_index ts
      (buildManifest llm mkDiagram mkAnim jsonLoads parse dId aId ts cell_index
        code title) with
  | .error e => .error e
  | .ok (cid, m', st') => .ok (dictSet m' "id" cid, st')

/-! ### Helper lemmas -/

theorem dictGet_dictSet_self (m : List (String × Val)) (k : String) (v : Val) :
    dictGet (dictSet m k v) k = some v := by
  induction m with
  | nil => simp [dictSet, dictGet]
  | cons p rest ih =>
      by_cases h : p.1 = k
      · simp [dictSet, dictGet, h]
      · simp [dictSet, dictGet, h, ih]

theorem dictGet_dictSet_ne (m : List (String × Val)) (k : String) (v : Val)
    (k' : String) (h : k' ≠ k) :
    dictGet (dictSet m k v) k' = dictGet m k' := by
  have hks : ¬ k = k' := fun hh => h hh.symm
  induction m with
  | nil => simp [dictSet, dictGet, hks]
  | cons p rest ih =>
      obtain ⟨pk, pv⟩ := p
      by_cases hp : pk = k
      · subst hp
        simp [dictSet, dictGet, hks]
      · by_cases hp' : pk = k'
        · simp [dictSet, dictGet, hp, hp', h]
        · simp [dictSet, dictGet, hp, hp', ih]

theorem lookupAgent_eq_none (cid : Val) :
    ∀ l : List (Val × Int × List (String × Val) × Int),
      (∀ r ∈ l, r.1 ≠ cid) → lookupAgent l cid = none
  | [], _ => rfl
  | r :: rest, h => by
      have hr : r.1 ≠ cid := h r (List.mem_cons_self r rest)
      simp only [lookupAgent, if_neg hr]
      exact lookupAgent_eq_none cid rest (fun x hx => h x (List.mem_cons_of_mem r hx))

theorem lookupAgent_append_singleton (cid : Val)
    (row : Val × Int × List (String × Val) × Int) (hk : row.1 = cid) :
    ∀ l : List (Val × Int × List (String × Val) × Int),
      lookupAgent l cid = none →
      lookupAgent (l ++ [row]) cid = some row.2.2.1
  | [], _ => by simp [lookupAgent, hk]
  | r :: rest, h => by
      by_cases hr : r.1 = cid
      · simp only [lookupAgent, if_pos hr] at h
        exact absurd h (by simp)
      · simp only [lookupAgent, if_neg hr] at h
        simp only [List.cons_append, lookupAgent, if_neg hr]
        exact lookupAgent_append_singleton cid row hk rest h

theorem gradeAll_length (q : Val) :
    ∀ (l : List AnswerEntry) (ds : List DetailEntry),
      gradeAll q l = .ok ds → ds.length = l.length
  | [], ds, h => by
      simp only [gradeAll] at h
      cases h
      rfl
  | a :: rest, ds, h => by
      simp only [gradeAll] at h
      cases h1 : gradeOne q a with
      | error e => rw [h1] at h; cases h
      | ok d =>
          rw [h1] at h
          cases h2 : gradeAll q rest with
          | error e => rw [h2] at h; cases h
          | ok ds' =>
              rw [h2] at h
              cases h
              simp [gradeAll_length q rest ds' h2]

theorem gradeAll_map (q : Val) (f : AnswerEntry → DetailEntry) :
    ∀ l : List AnswerEntry, (∀ a ∈ l, gradeOne q a = .ok (f a)) →
      gradeAll q l = .ok (l.map f)
  | [], _ => rfl
  | a :: rest, h => by
      simp only [gradeAll]
      rw [h a (List.mem_cons_self a rest),
          gradeAll_map q f rest (fun x hx => h x (List.mem_cons_of_mem a hx))]
      rfl

theorem gradeAll_get (q : Val) :
    ∀ (l : List AnswerEntry) (ds : List DetailEntry),
      gradeAll q l = .ok ds →
      ∀ (i : Nat) (a : AnswerEntry), l.get? i = some a →
        ∃ d, ds.get? i = some d ∧ gradeOne q a = .ok d
  | [], _, _, i, a, ha => by cases i <;> cases ha
  | b :: rest, ds, h, i, a, ha => by
      simp only [gradeAll] at h
      cases h1 : gradeOne q b with
      | error e => rw [h1] at h; cases h
      | ok d =>
          rw [h1] at h
          cases h2 : gradeAll q rest with
          | error e => rw [h2] at h; cases h
          | ok ds' =>
              rw [h2] at h
              cases h
              cases i with
              | zero =>
                  cases ha
                  exact ⟨d, rfl, h1⟩
              | succ j => exact gradeAll_get q rest ds' h2 j a ha

theorem pyLower_eq_empty_iff (s : String) : pyLower s = "" ↔ s = "" := by
  cases s with
  | mk data =>
      simp [pyLower, String.ext_iff]

/-! ### Claim C2 -/

/-- C2: `Inspector.extract_summary` never raises (it is a total function of
its input); for every unparseable input it returns a result tagged as an
error whose `raw_code` entry is the raw input truncated to at most its
first 200 characters (a prefix of the input of length at most 200). -/
theorem c2_extract_summary_parse_failure (parse : String → Option (List Node))
    (code : String) (h : parse code = none) :
    dictGet (extract_summary parse code) "error" =
      some (.str "not python or parse error") ∧
    dictGet (extract_summary parse code) "raw_code" =
      some (.str (pySlice code 200)) ∧
    (pySlice code 200).length ≤ 200 ∧
    (pySlice code 200).data <+: code.data := by
  refine ⟨?_, ?_, ?_, ?_⟩
  · simp [extract_summary, h, dictGet]
  · simp [extract_summary, h, dictGet]
  · show (code.data.take 200).length ≤ 200
    simp [List.length_take]
  · exact List.take_prefix 200 code.data

def parseAlwaysFails : String → Option (List Node) := fun _ => none

/-- Witness for C2 at the concrete unparseable input "def (". -/
theorem c2_extract_summary_parse_failure_witness :
    parseAlwaysFails "def (" = none ∧
    (dictGet (extract_summary parseAlwaysFails "def (") "error" =
      some (.str "not python or parse error") ∧
    dictGet (extract_summary parseAlwaysFails "def (") "raw_code" =
      some (.str (pySlice "def (" 200)) ∧
    (pySlice "def (" 200).length ≤ 200 ∧
    (pySlice "def (" 200).data <+: "def (".data) :=
  ⟨rfl, c2_extract_summary_parse_failure parseAlwaysFails "def (" rfl⟩

/-! ### Claim C9 -/

/-- C9: for every id that was never registered (no stored row has it as
key), `Registry.get_manifest` returns the not-found signal `none` — the
return type `Option` carries no exception and no default payload. -/
theorem c9_get_manifest_not_found (st : RegistryState) (cid : Val)
    (h : ∀ r ∈ st.cell_agents, r.1 ≠ cid) :
    get_manifest st cid = none :=
  lookupAgent_eq_none cid st.cell_agents h

/-- Witness for C9 on an empty store and the id "ghost". -/
theorem c9_get_manifest_not_found_witness :
    (∀ r ∈ (RegistryState.mk [] []).cell_agents, r.1 ≠ Val.str "ghost") ∧
    get_manifest (RegistryState.mk [] []) (Val.str "ghost") = none :=
  ⟨by simp, c9_get_manifest_not_found (RegistryState.mk [] []) (Val.str "ghost")
    (by simp)⟩

/-! ### Claim C4 -/

/-- C4: when `register` succeeds (its fresh id draw — 8 characters of a
UUID — or the manifest's own truthy id is not already a key), it returns a
non-empty (truthy) id, and `get_manifest` on that id returns the stored
payload whose "id" entry equals the returned id. -/
theorem c4_register_roundtrip (fresh : String) (st : RegistryState)
    (idx ts : Int) (m : List (String × Val)) (hfresh : fresh.length = 8)
    (hnew : lookupAgent st.cell_agents (computeCid m fresh) = none) :
    ∃ cid m' st', register fresh st idx ts m = .ok (cid, m', st') ∧
      truthy cid = true ∧ cid ≠ Val.str "" ∧
      get_manifest st' cid = some m' ∧ dictGet m' "id" = some cid := by
  have hfr : fresh ≠ "" := by
    intro hh
    rw [hh] at hfresh
    simp at hfresh
  have htruthy : truthy (computeCid m fresh) = true := by
    unfold computeCid
    cases hid : dictGet m "id" with
    | none => simp [truthy, hfr]
    | some v =>
        show truthy (if truthy v = true then v else Val.str fresh) = true
        by_cases hv : truthy v = true
        · simp [hv]
        · rw [if_neg hv]
          simp [truthy, hfr]
  refine ⟨computeCid m fresh, dictSet m "id" (computeCid m fresh),
    ⟨st.cell_agents ++ [(computeCid m fresh, idx, dictSet m "id" (computeCid m fresh), ts)],
     st.attempts⟩, ?_, htruthy, ?_, ?_, ?_⟩
  · simp [register, hnew]
  · intro hh
    rw [hh] at htruthy
    simp [truthy] at htruthy
  · exact lookupAgent_append_singleton (computeCid m fresh) _ rfl st.cell_agents hnew
  · exact dictGet_dictSet_self m "id" (computeCid m fresh)

/-- Witness for C4: registering an id-less manifest in the empty store under
the fresh id "abcd1234". -/
theorem c4_register_roundtrip_witness :
    ("abcd1234" : String).length = 8 ∧
    lookupAgent (RegistryState.mk [] []).cell_agents
      (computeCid [("name", Val.str "n")] "abcd1234") = none ∧
    (∃ cid m' st',
      register "abcd1234" (RegistryState.mk [] []) 0 7 [("name", Val.str "n")] =
        .ok (cid, m', st') ∧
      truthy cid = true ∧ cid ≠ Val.str "" ∧
      get_manifest st' cid = some m' ∧ dictGet m' "id" = some cid) :=
  ⟨by decide, rfl,
    c4_register_roundtrip "abcd1234" (RegistryState.mk [] []) 0 7
      [("name", Val.str "n")] (by decide) rfl⟩

/-! ### Claim C10 -/

/-- C10: for a manifest dict carrying no "id" key, a successful `register`
updates the caller's dict (modelled by the returned, aliased `m'`) by
setting "id" to the generated id, leaves every other key unchanged, and the
persisted payload is that same mutated dict. -/
theorem c10_register_mutates_in_place (fresh : String) (st : RegistryState)
    (idx ts : Int) (m : List (String × Val))
    (hno : dictGet m "id" = none)
    (hnew : lookupAgent st.cell_agents (Val.str fresh) = none) :
    ∃ st', register fresh st idx ts m =
        .ok (Val.str fresh, dictSet m "id" (Val.str fresh), st') ∧
      dictGet (dictSet m "id" (Val.str fresh)) "id" = some (Val.str fresh) ∧
      (∀ k, k ≠ "id" →
        dictGet (dictSet m "id" (Val.str fresh)) k = dictGet m k) ∧
      get_manifest st' (Val.str fresh) = some (dictSet m "id" (Val.str fresh)) := by
  have hcid : computeCid m fresh = Val.str fresh := by
    unfold computeCid
    rw [hno]
  refine ⟨⟨st.cell_agents ++
      [(Val.str fresh, idx, dictSet m "id" (Val.str fresh), ts)], st.attempts⟩,
    ?_, dictGet_dictSet_self m "id" (Val.str fresh),
    fun k hk => dictGet_dictSet_ne m "id" (Val.str fresh) k hk, ?_⟩
  · simp [register, hcid, hnew]
  · exact lookupAgent_append_singleton (Val.str fresh) _ rfl st.cell_agents hnew

/-- Witness for C10: an id-less two-key manifest keeps its other key. -/
theorem c10_register_mutates_in_place_witness :
    dictGet [("name", Val.str "n")] "id" = none ∧
    lookupAgent (RegistryState.mk [] []).cell_agents (Val.str "ffffffff") = none ∧
    (∃ st', register "ffffffff" (RegistryState.mk [] []) 2 9 [("name", Val.str "n")] =
        .ok (Val.str "ffffffff",
             dictSet [("name", Val.str "n")] "id" (Val.str "ffffffff"), st') ∧
      dictGet (dictSet [("name", Val.str "n")] "id" (Val.str "ffffffff")) "id" =
        some (Val.str "ffffffff") ∧
      (∀ k, k ≠ "id" →
        dictGet (dictSet [("name", Val.str "n")] "id" (Val.str "ffffffff")) k =
          dictGet [("name", Val.str "n")] k) ∧
      get_manifest st' (Val.str "ffffffff") =
        some (dictSet [("name", Val.str "n")] "id" (Val.str "ffffffff"))) :=
  ⟨rfl, rfl,
    c10_register_mutates_in_place "ffffffff" (RegistryState.mk [] []) 2 9
      [("name", Val.str "n")] rfl rfl⟩

/-! ### Claim C1 -/

/-- C1 counterexample: on an id absent from the store, `get_visuals` does
NOT return a partial structure with `None` diagram/animation fields — it
raises (`None.get("diagram")` is an `AttributeError`), exactly like the
other runtime operations. -/
theorem c1_get_visuals_counterexample :
    get_visuals (RegistryState.mk [] []) (Val.str "missing") =
      .error .attributeError ∧
    get_visuals (RegistryState.mk [] []) (Val.str "missing") ≠
      .ok [("diagram", Val.null), ("animation", Val.null)] := by
  exact ⟨rfl, by decide⟩

/-- C1 amended: on a manifest id absent from the store, all four runtime
operations fail with an error distinguishable from a successful result:
`explain` with the explicit not-found `ValueError`, `ask_question` with a
`TypeError` and `run_quiz` and `get_visuals` with an `AttributeError` from
accessing the missing (`None`) manifest — `get_visuals` does not return a
partial structure. -/
theorem c1_runtime_not_found (st : RegistryState) (cid : Val)
    (llm : String → String) (aid : String) (ts : Int)
    (answers : List AnswerEntry) (q depth : String)
    (h : get_manifest st cid = none) :
    explain st cid depth = .error (.valueError "Cell agent not found") ∧
    ask_question llm st cid q = .error .typeError ∧
    run_quiz aid ts st cid answers = .error .attributeError ∧
    get_visuals st cid = .error .attributeError := by
  refine ⟨?_, ?_, ?_, ?_⟩
  · simp [explain, h]
  · simp [ask_question, h]
  · simp [run_quiz, h]
  · simp [get_visuals, h]

/-- Witness for the amended C1 on an empty store. -/
theorem c1_runtime_not_found_witness :
    get_manifest (RegistryState.mk [] []) (Val.str "nope") = none ∧
    (explain (RegistryState.mk [] []) (Val.str "nope") "summary" =
      .error (.valueError "Cell agent not found") ∧
    ask_question (fun p => p) (RegistryState.mk [] []) (Val.str "nope") "why" =
      .error .typeError ∧
    run_quiz "a1" 0 (RegistryState.mk [] []) (Val.str "nope") [] =
      .error .attributeError ∧
    get_visuals (RegistryState.mk [] []) (Val.str "nope") =
      .error .attributeError) :=
  ⟨rfl, c1_runtime_not_found (RegistryState.mk [] []) (Val.str "nope")
    (fun p => p) "a1" 0 [] "why" "summary" rfl⟩

/-! ### Claim C8 -/

/-- C8: every call of `run_quiz` that returns a result has appended exactly
one attempt row (the graded summary, under the manifest id and the fresh
attempt id) to the store, left the manifests untouched, and the returned
summary's "total" entry equals the length of the answers list. -/
theorem c8_run_quiz_one_attempt (aid : String) (ts : Int) (st : RegistryState)
    (cid : Val) (answers : List AnswerEntry) (summary : List (String × Val))
    (st' : RegistryState)
    (h : run_quiz aid ts st cid answers = .ok (summary, st')) :
    st'.attempts = st.attempts ++ [(aid, cid, ts, summary)] ∧
    st'.attempts.length = st.attempts.length + 1 ∧
    st'.cell_agents = st.cell_agents ∧
    dictGet summary "total" = some (.num (answers.length : Int)) := by
  simp only [run_quiz] at h
  cases hm : get_manifest st cid with
  | none => simp [hm] at h
  | some manifest =>
      simp only [hm] at h
      cases hg : gradeAll (dictGetD manifest "quiz" (.list [])) answers with
      | error e => simp [hg] at h
      | ok results =>
          simp only [hg, store_attempt] at h
          cases hA : hasAttempt st.attempts aid with
          | true => simp [hA] at h
          | false =>
              simp [hA] at h
              obtain ⟨h1, h2⟩ := h
              subst h1
              subst h2
              refine ⟨rfl, by simp, rfl, ?_⟩
              have hlen := gradeAll_length _ answers results hg
              simp [summaryDict, dictGet, hlen]

/-- A store holding one registered manifest with a one-question quiz. -/
def oneQuizState : RegistryState :=
  ⟨[(Val.str "c1", 0,
     [("quiz", Val.list [Val.obj [("answer_hint", Val.str "Yes")]])], 0)], []⟩

def oneQuizSummary : List (String × Val) :=
  [("score", Val.num 1), ("total", Val.num 1),
   ("details", Val.list [Val.obj [("index", Val.num 0),
     ("user_answer", Val.str "yes it does"), ("correct", Val.bool true)]])]

def oneQuizFinal : RegistryState :=
  ⟨oneQuizState.cell_agents, [("a7", Val.str "c1", 3, oneQuizSummary)]⟩

/-- Witness for C8: a one-question registered quiz graded on one answer. -/
theorem c8_run_quiz_one_attempt_witness :
    run_quiz "a7" 3 oneQuizState (Val.str "c1") [⟨0, "yes it does"⟩] =
      .ok (oneQuizSummary, oneQuizFinal) ∧
    (oneQuizFinal.attempts =
        oneQuizState.attempts ++ [("a7", Val.str "c1", 3, oneQuizSummary)] ∧
     oneQuizFinal.attempts.length = oneQuizState.attempts.length + 1 ∧
     oneQuizFinal.cell_agents = oneQuizState.cell_agents ∧
     dictGet oneQuizSummary "total" = some (.num 1)) :=
  ⟨by decide,
   c8_run_quiz_one_attempt "a7" 3 oneQuizState (Val.str "c1") [⟨0, "yes it does"⟩]
     oneQuizSummary oneQuizFinal (by decide)⟩

/-! ### Claim C5 -/

/-- The answer hint of question `i`, as the claim describes it: the stored
`answer_hint` string of the in-range question, `""` otherwise. -/
def hintAt (qs : List Val) (i : Int) : String :=
  if 0 ≤ i ∧ i < (qs.length : Int) then
    match qs.get? i.toNat with
    | some (.obj d) =>
        match dictGet d "answer_hint" with
        | some (.str s) => s
        | _ => ""
    | _ => ""
  else ""

/-- The claim's grading rule for one entry: unconditionally correct when the
hint is empty, otherwise correct iff the lowercased hint is a substring of
the lowercased answer. -/
def specGrade (qs : List Val) (a : AnswerEntry) : DetailEntry :=
  ⟨a.qIndex, a.answer,
   if hintAt qs a.qIndex = "" then true
   else strContains (pyLower a.answer) (pyLower (hintAt qs a.qIndex))⟩

theorem gradeOne_spec (qs : List Val) (a : AnswerEntry)
    (d : List (String × Val)) (h : String)
    (h0 : 0 ≤ a.qIndex) (h1 : a.qIndex < (qs.length : Int))
    (hq : qs.get? a.qIndex.toNat = some (.obj d))
    (hh : dictGet d "answer_hint" = some (.str h)) :
    gradeOne (.list qs) a = .ok (specGrade qs a) := by
  have hAt : hintAt qs a.qIndex = h := by
    unfold hintAt
    rw [if_pos ⟨h0, h1⟩]
    simp only [hq, hh]
  show (if a.qIndex < (qs.length : Int) then _ else _) = _
  rw [if_pos h1]
  unfold pyIndex
  rw [if_pos h0]
  simp only [hq, hintOf, hh]
  unfold specGrade
  rw [hAt]
  by_cases hemp : h = ""
  · subst hemp
    simp [pyLower]
  · have hpl : pyLower h ≠ "" := fun hc => hemp ((pyLower_eq_empty_iff h).mp hc)
    simp [hemp, hpl]

/-- C5: for answers whose entries reference only in-range questions that
carry a string `answer_hint`, `run_quiz` grades exactly by the claim's
rule (`specGrade`: empty hint → unconditionally correct; non-empty hint →
correct iff the lowercased hint is a substring of the lowercased answer)
and returns a score equal to the count of correct entries, storing that
summary as the attempt. -/
theorem c5_run_quiz_grading (aid : String) (ts : Int) (st : RegistryState)
    (cid : Val) (answers : List AnswerEntry) (m : List (String × Val))
    (qs : List Val)
    (hm : get_manifest st cid = some m)
    (hq : dictGet m "quiz" = some (.list qs))
    (haid : hasAttempt st.attempts aid = false)
    (hw : ∀ a ∈ answers, 0 ≤ a.qIndex ∧ a.qIndex < (qs.length : Int) ∧
      ∃ d h, qs.get? a.qIndex.toNat = some (.obj d) ∧
        dictGet d "answer_hint" = some (.str h)) :
    run_quiz aid ts st cid answers =
      .ok (summaryDict (answers.map (specGrade qs)),
        ⟨st.cell_agents,
         st.attempts ++ [(aid, cid, ts, summaryDict (answers.map (specGrade qs)))]⟩) ∧
    dictGet (summaryDict (answers.map (specGrade qs))) "score" =
      some (.num ((((answers.map (specGrade qs)).filter
        (fun r => r.correct)).length : Nat) : Int)) := by
  have hgrade : gradeAll (.list qs) answers = .ok (answers.map (specGrade qs)) := by
    refine gradeAll_map (.list qs) (specGrade qs) answers (fun a ha => ?_)
    obtain ⟨h0, h1, d, hs, hq', hh'⟩ := hw a ha
    exact gradeOne_spec qs a d hs h0 h1 hq' hh'
  constructor
  · simp only [run_quiz, hm]
    have hdd : dictGetD m "quiz" (.list []) = .list qs := by
      simp [dictGetD, hq]
    simp only [hdd, hgrade, store_attempt, haid]
    simp
  · simp [summaryDict, dictGet]

/-- Witness for C5: the hint "Yes" is found case-insensitively inside the
answer "say YES now". -/
theorem c5_run_quiz_grading_witness :
    get_manifest oneQuizState (Val.str "c1") =
      some [("quiz", Val.list [Val.obj [("answer_hint", Val.str "Yes")]])] ∧
    dictGet [("quiz", Val.list [Val.obj [("answer_hint", Val.str "Yes")]])] "quiz" =
      some (.list [Val.obj [("answer_hint", Val.str "Yes")]]) ∧
    hasAttempt oneQuizState.attempts "a9" = false ∧
    (run_quiz "a9" 4 oneQuizState (Val.str "c1") [⟨0, "say YES now"⟩] =
      .ok (summaryDict ([⟨0, "say YES now"⟩].map
            (specGrade [Val.obj [("answer_hint", Val.str "Yes")]])),
        ⟨oneQuizState.cell_agents,
         oneQuizState.attempts ++ [("a9", Val.str "c1", 4,
           summaryDict ([⟨0, "say YES now"⟩].map
             (specGrade [Val.obj [("answer_hint", Val.str "Yes")]])))]⟩) ∧
     dictGet (summaryDict ([⟨0, "say YES now"⟩].map
         (specGrade [Val.obj [("answer_hint", Val.str "Yes")]]))) "score" =
       some (.num ((((([⟨0, "say YES now"⟩].map
         (specGrade [Val.obj [("answer_hint", Val.str "Yes")]])).filter
           (fun r => r.correct)).length : Nat) : Int)))) :=
  ⟨rfl, rfl, rfl,
   c5_run_quiz_grading "a9" 4 oneQuizState (Val.str "c1") [⟨0, "say YES now"⟩]
     [("quiz", Val.list [Val.obj [("answer_hint", Val.str "Yes")]])]
     [Val.obj [("answer_hint", Val.str "Yes")]] rfl rfl rfl
     (by
       intro a ha
       simp only [List.mem_singleton] at ha
       subst ha
       exact ⟨by decide, by decide,
         [("answer_hint", Val.str "Yes")], "Yes", rfl, rfl⟩)⟩

/-! ### Claim C6 -/

/-- C6 counterexample: an out-of-range NEGATIVE `q_index` is not graded
correct — it raises.  `-2` passes the guard `idx < len(quiz)` of the
one-question quiz, so `quiz[-2]` is evaluated and raises `IndexError`. -/
theorem c6_negative_index_counterexample :
    run_quiz "a2" 0 oneQuizState (Val.str "c1") [⟨-2, "anything"⟩] =
      .error .indexError ∧
    (run_quiz "a2" 0 oneQuizState (Val.str "c1") [⟨-2, "anything"⟩]).isOk = false := by
  decide

/-- C6 amended: an entry whose `q_index` is at least the stored quiz's
length yields an empty `expected_hint` and is graded correct rather than
signalling an error; out-of-range NEGATIVE indices are not covered (the
`idx < len(quiz)` guard admits them, so they index from the back or raise
`IndexError`). -/
theorem c6_overrange_index_graded_correct (aid : String) (ts : Int)
    (st : RegistryState) (cid : Val) (answers : List AnswerEntry)
    (m : List (String × Val)) (qs : List Val) (s : List (String × Val))
    (st' : RegistryState) (i : Nat) (a : AnswerEntry)
    (hm : get_manifest st cid = some m)
    (hq : dictGet m "quiz" = some (.list qs))
    (hok : run_quiz aid ts st cid answers = .ok (s, st'))
    (hi : answers.get? i = some a)
    (hbig : (qs.length : Int) ≤ a.qIndex) :
    ∃ ds, dictGet s "details" = some (.list ds) ∧
      ds.get? i = some (detailVal ⟨a.qIndex, a.answer, true⟩) := by
  simp only [run_quiz, hm] at hok
  have hdd : dictGetD m "quiz" (.list []) = .list qs := by
    simp [dictGetD, hq]
  rw [hdd] at hok
  cases hg : gradeAll (.list qs) answers with
  | error e => simp [hg] at hok
  | ok results =>
      simp only [hg, store_attempt] at hok
      cases hA : hasAttempt st.attempts aid with
      | true => simp [hA] at hok
      | false =>
          simp [hA] at hok
          obtain ⟨h1, h2⟩ := hok
          subst h1
          obtain ⟨d, hd, hone⟩ := gradeAll_get (.list qs) answers results hg i a hi
          have hd2 : d = ⟨a.qIndex, a.answer, true⟩ := by
            have : gradeOne (.list qs) a = .ok ⟨a.qIndex, a.answer, true⟩ := by
              show (if a.qIndex < (qs.length : Int) then _ else _) = _
              rw [if_neg (not_lt.mpr hbig)]
            rw [this] at hone
            exact (Except.ok.inj hone).symm
          refine ⟨results.map detailVal, by simp [summaryDict, dictGet], ?_⟩
          rw [List.get?_map, hd, hd2]
          rfl

/-- Witness for the amended C6: index 5 against a one-question quiz is
graded correct. -/
theorem c6_overrange_index_graded_correct_witness :
    get_manifest oneQuizState (Val.str "c1") =
      some [("quiz", Val.list [Val.obj [("answer_hint", Val.str "Yes")]])] ∧
    dictGet [("quiz", Val.list [Val.obj [("answer_hint", Val.str "Yes")]])] "quiz" =
      some (.list [Val.obj [("answer_hint", Val.str "Yes")]]) ∧
    run_quiz "a3" 1 oneQuizState (Val.str "c1") [⟨5, "whatever"⟩] =
      .ok ([("score", Val.num 1), ("total", Val.num 1),
            ("details", Val.list [detailVal ⟨5, "whatever", true⟩])],
           ⟨oneQuizState.cell_agents,
            [("a3", Val.str "c1", 1,
              [("score", Val.num 1), ("total", Val.num 1),
               ("details", Val.list [detailVal ⟨5, "whatever", true⟩])])]⟩) ∧
    [⟨(5 : Int), "whatever"⟩].get? 0 = some (⟨5, "whatever"⟩ : AnswerEntry) ∧
    (((([Val.obj [("answer_hint", Val.str "Yes")]] : List Val)).length : Int) ≤ 5) ∧
    (∃ ds, dictGet [("score", Val.num 1), ("total", Val.num 1),
        ("details", Val.list [detailVal ⟨5, "whatever", true⟩])] "details" =
          some (.list ds) ∧
      ds.get? 0 = some (detailVal ⟨5, "whatever", true⟩)) :=
  ⟨rfl, rfl, by decide, rfl, by decide,
   c6_overrange_index_graded_correct "a3" 1 oneQuizState (Val.str "c1")
     [⟨5, "whatever"⟩]
     [("quiz", Val.list [Val.obj [("answer_hint", Val.str "Yes")]])]
     [Val.obj [("answer_hint", Val.str "Yes")]]
     [("score", Val.num 1), ("total", Val.num 1),
      ("details", Val.list [detailVal ⟨5, "whatever", true⟩])]
     ⟨oneQuizState.cell_agents,
      [("a3", Val.str "c1", 1,
        [("score", Val.num 1), ("total", Val.num 1),
         ("details", Val.list [detailVal ⟨5, "whatever", true⟩])])]⟩
     0 ⟨5, "whatever"⟩ rfl rfl (by decide) rfl (by decide)⟩

/-! ### Claim C7 -/

/-- A text generator that replies "5" to every prompt — valid JSON, but not
a sequence of Question records. -/
def llmFive : String → String := fun _ => "5"

/-- `json.loads` on the reply "5": decoding succeeds with the number 5. -/
def jsonLoadsFive : String → Option Val := fun _ => some (.num 5)

def jsonLoadsFails : String → Option Val := fun _ => none

def mkDiagramStub : String → String → String := fun i _ => i ++ "_diagram.png"

def mkAnimStub : String → List String → String := fun i _ => i ++ "_anim.gif"

/-- C7 counterexample: when the generator's quiz reply decodes as JSON but
has the wrong shape (the number 5 instead of a list of Questions), the
built manifest stores that payload as-is — the default Question is NOT
substituted. -/
theorem c7_wrong_shape_counterexample :
    jsonLoadsFive (llmFive quizPrompt) = some (Val.num 5) ∧
    (build_for_cell llmFive mkDiagramStub mkAnimStub jsonLoadsFive
        parseAlwaysFails "d1" "a1" "m1" 0 (RegistryState.mk [] []) 0 "x = 1"
        none).map (fun p => dictGet p.1 "quiz") = .ok (some (Val.num 5)) ∧
    Val.num 5 ≠ defaultQuiz := by
  decide

/-- C7 amended: the default Question is substituted exactly when the
generator's quiz reply fails to decode as JSON (`json.loads` raises); a
successfully decoded payload of any shape is stored unchanged.  In either
case no decode error reaches the caller (a fresh manifest id makes the
whole build succeed) and the manifest's quiz entry is present. -/
theorem c7_quiz_fallback_on_decode_failure (llm : String → String)
    (mkDiagram : String → String → String) (mkAnim : String → List String → String)
    (jsonLoads : String → Option Val) (parse : String → Option (List Node))
    (dId aId mId : String) (ts : Int) (st : RegistryState) (idx : Int)
    (code : String) (title : Option String)
    (hnew : lookupAgent st.cell_agents (Val.str mId) = none) :
    ∃ m st', build_for_cell llm mkDiagram mkAnim jsonLoads parse dId aId mId ts
        st idx code title = .ok (m, st') ∧
      dictGet m "quiz" = some ((jsonLoads (llm quizPrompt)).getD defaultQuiz) := by
  have hid : dictGet (buildManifest llm mkDiagram mkAnim jsonLoads parse dId aId
      ts idx code title) "id" = none := by
    cases hj : jsonLoads (llm quizPrompt) <;>
      simp [buildManifest, dictGet, hj]
  have hquiz : dictGet (buildManifest llm mkDiagram mkAnim jsonLoads parse dId aId
      ts idx code title) "quiz" = some ((jsonLoads (llm quizPrompt)).getD defaultQuiz) := by
    cases hj : jsonLoads (llm quizPrompt) <;>
      simp [buildManifest, dictGet, hj]
  have hcid : computeCid (buildManifest llm mkDiagram mkAnim jsonLoads parse dId aId
      ts idx code title) mId = Val.str mId := by
    unfold computeCid
    rw [hid]
  refine ⟨dictSet (dictSet (buildManifest llm mkDiagram mkAnim jsonLoads parse dId aId
      ts idx code title) "id" (Val.str mId)) "id" (Val.str mId),
    ⟨st.cell_agents ++ [(Val.str mId, idx,
       dictSet (buildManifest llm mkDiagram mkAnim jsonLoads parse dId aId
         ts idx code title) "id" (Val.str mId), ts)], st.attempts⟩, ?_, ?_⟩
  · simp only [build_for_cell, register, hcid, hnew, Option.isSome_none,
      Bool.false_eq_true, if_false]
  · rw [dictGet_dictSet_ne _ _ _ _ (by decide),
       dictGet_dictSet_ne _ _ _ _ (by decide)]
    exact hquiz

/-- Witness for the amended C7: a generator whose quiz reply is
undecodable JSON yields the single default question. -/
theorem c7_quiz_fallback_on_decode_failure_witness :
    lookupAgent (RegistryState.mk [] []).cell_agents (Val.str "m1") = none ∧
    (∃ m st', build_for_cell llmFive mkDiagramStub mkAnimStub jsonLoadsFails
        parseAlwaysFails "d1" "a1" "m1" 0 (RegistryState.mk [] []) 0 "x = 1"
        none = .ok (m, st') ∧
      dictGet m "quiz" =
        some ((jsonLoadsFails (llmFive quizPrompt)).getD defaultQuiz)) :=
  ⟨rfl,
   c7_quiz_fallback_on_decode_failure llmFive mkDiagramStub mkAnimStub
     jsonLoadsFails parseAlwaysFails "d1" "a1" "m1" 0 (RegistryState.mk [] [])
     0 "x = 1" none rfl⟩

/-! ### Claim C3 -/

/-- The spec's "every function definition's name in document order":
collected along the depth-first pre-order traversal.  This definition
follows the spec's words, to be compared with the source's collection
along the breadth-first `ast.walk`. -/
def docOrderFunctionNames (body : List Node) : List String :=
  (dfs body).filterMap funcName

/-- The module names an import statement mentions.  This definition
follows the spec's words "the set of imported module names": every alias
of an `import` statement counts, not only the first. -/
def moduleNamesOf : Node → List String
  | .importStmt f r => f :: r
  | .importFromStmt (some m) => [m]
  | _ => []

def allImportedModules (body : List Node) : List String :=
  (dfs body).flatMap moduleNamesOf

/-- The import names the source actually collects, in document order:
the FIRST alias of each `import` statement, then the truthy modules of
`from ... import` statements. -/
def codeImportModules (body : List Node) : List String :=
  (dfs body).filterMap importFirst ++ (dfs body).filterMap fromModule

/-- `ast.parse` result for `cexCode`: two top-level functions `a` (with a
nested function `b`) and `c`, then `import os, sys`. -/
def cexBody : List Node :=
  [.functionDef "a" [.functionDef "b" [.other []]],
   .functionDef "c" [.other []],
   .importStmt "os" ["sys"]]

def cexCode : String :=
  "def a():\n    def b():\n        pass\ndef c():\n    pass\nimport os, sys\n"

/-- `ast.parse` restricted to the input of interest: it maps `cexCode` to
`cexBody` (the tree real parsing produces there). -/
def parseCex : String → Option (List Node) := fun _ => some cexBody

/-- C3 counterexample: on a parseable input with a nested function and a
two-alias import, `extract_summary` returns the function names in
breadth-first order `["a", "c", "b"]`, NOT document order `["a", "b", "c"]`,
and its import set `{"os"}` omits the imported module name "sys" (only the
first alias of an `import` statement is collected). -/
theorem c3_extract_summary_counterexample :
    parseCex cexCode = some cexBody ∧
    dictGet (extract_summary parseCex cexCode) "functions" =
      some (.list [Val.str "a", Val.str "c", Val.str "b"]) ∧
    docOrderFunctionNames cexBody = ["a", "b", "c"] ∧
    [Val.str "a", Val.str "c", Val.str "b"] ≠
      (docOrderFunctionNames cexBody).map Val.str ∧
    "sys" ∈ allImportedModules cexBody ∧
    dictGet (extract_summary parseCex cexCode) "imports" =
      some (.list [Val.str "os"]) ∧
    Val.str "sys" ∉ [Val.str "os"] := by
  have hbfs : bfs cexBody =
      [.functionDef "a" [.functionDef "b" [.other []]],
       .functionDef "c" [.other []],
       .importStmt "os" ["sys"],
       .functionDef "b" [.other []],
       .other [], .other []] := by
    simp [cexBody, bfs, children]
  have hdfs : dfs cexBody =
      [.functionDef "a" [.functionDef "b" [.other []]],
       .functionDef "b" [.other []],
       .other [],
       .functionDef "c" [.other []],
       .other [],
       .importStmt "os" ["sys"]] := by
    simp [cexBody, dfs, children]
  refine ⟨rfl, ?_, ?_, ?_, ?_, ?_, by decide⟩
  · simp [extract_summary, parseCex, dictGet, hbfs, funcName]
  · simp [docOrderFunctionNames, hdfs, funcName]
  · simp [docOrderFunctionNames, hdfs, funcName]
  · simp [allImportedModules, hdfs, moduleNamesOf]
  · simp [extract_summary, parseCex, dictGet, hbfs, importFirst, fromModule]

/-- C3 amended: on parseable input, `extract_summary` returns (a) every
function definition's name — nested ones included — as a permutation of the
document-order list (the actual order is `ast.walk`'s breadth-first order);
(b) a boolean true iff a for- or while-loop occurs anywhere in the tree;
(c) a duplicate-free import list containing exactly the non-empty names the
source collects (the FIRST alias of each import statement plus the truthy
from-import modules); (d) every non-blank source line, order preserved,
without de-indentation. -/
theorem c3_extract_summary_success (parse : String → Option (List Node))
    (code : String) (body : List Node) (h : parse code = some body) :
    (∃ fs : List String,
      dictGet (extract_summary parse code) "functions" =
        some (.list (fs.map .str)) ∧
      fs.Perm (docOrderFunctionNames body)) ∧
    (∃ b : Bool,
      dictGet (extract_summary parse code) "has_loop" = some (.bool b) ∧
      (b = true ↔ ∃ n ∈ dfs body, isLoopNode n = true)) ∧
    (∃ is : List String,
      dictGet (extract_summary parse code) "imports" =
        some (.list (is.map .str)) ∧
      is.Nodup ∧
      ∀ s : String, s ∈ is ↔ (s ≠ "" ∧ s ∈ codeImportModules body)) ∧
    dictGet (extract_summary parse code) "lines" =
      some (.list (((pySplitlines code).filter nonBlank).map .str)) ∧
    List.Sublist ((pySplitlines code).filter nonBlank) (pySplitlines code) := by
  have hperm := bfs_perm_dfs body
  refine ⟨⟨(bfs body).filterMap funcName, ?_, hperm.filterMap funcName⟩,
    ⟨(bfs body).any isLoopNode, ?_, ?_⟩,
    ⟨(((bfs body).filterMap importFirst ++ (bfs body).filterMap fromModule).filter
        (fun i => i != "")).dedup, ?_, List.nodup_dedup _, ?_⟩, ?_, ?_⟩
  · simp [extract_summary, h, dictGet]
  · simp [extract_summary, h, dictGet]
  · rw [List.any_eq_true]
    constructor
    · rintro ⟨n, hn, hl⟩
      exact ⟨n, hperm.mem_iff.mp hn, hl⟩
    · rintro ⟨n, hn, hl⟩
      exact ⟨n, hperm.mem_iff.mpr hn, hl⟩
  · simp [extract_summary, h, dictGet]
  · intro s
    rw [List.mem_dedup, List.mem_filter, bne_iff_ne]
    unfold codeImportModules
    rw [List.mem_append, List.mem_append,
        (hperm.filterMap importFirst).mem_iff, (hperm.filterMap fromModule).mem_iff]
    tauto
  · simp [extract_summary, h, dictGet]
  · exact List.filter_sublist _

/-- Witness for the amended C3 at the concrete parse of `cexCode`. -/
theorem c3_extract_summary_success_witness :
    parseCex cexCode = some cexBody ∧
    ((∃ fs : List String,
      dictGet (extract_summary parseCex cexCode) "functions" =
        some (.list (fs.map .str)) ∧
      fs.Perm (docOrderFunctionNames cexBody)) ∧
    (∃ b : Bool,
      dictGet (extract_summary parseCex cexCode) "has_loop" = some (.bool b) ∧
      (b = true ↔ ∃ n ∈ dfs cexBody, isLoopNode n = true)) ∧
    (∃ is : List String,
      dictGet (extract_summary parseCex cexCode) "imports" =
        some (.list (is.map .str)) ∧
      is.Nodup ∧
      ∀ s : String, s ∈ is ↔ (s ≠ "" ∧ s ∈ codeImportModules cexBody)) ∧
    dictGet (extract_summary parseCex cexCode) "lines" =
      some (.list (((pySplitlines cexCode).filter nonBlank).map .str)) ∧
    List.Sublist ((pySplitlines cexCode).filter nonBlank) (pySplitlines cexCode)) :=
  ⟨rfl, c3_extract_summary_success parseCex cexCode cexBody rfl⟩

end CellTutor
